/-
Verification of the contract-intelligence version-lineage and temporal
materialization engine.

This file gives a shallow embedding of the engine's core:

* `ingestion/hashing.py`  — content-addressed identifiers (the cryptographic
  hash itself is kept abstract as a parameter `hash : String → String`;
  every property proved here holds for an arbitrary hash function);
* `ingestion/family.py`   — `match_or_create_family`, `assign_doc_versions`;
* `materialization/current_state.py` — the supersession fold and the
  `materialize_section` upsert;
* `query/engine.py`       — `_resolve_family`, `_resolve_section_id`,
  `query_current`, `query_changes`, `query_as_of`.

Datetimes are modelled as `Option Nat` (`none` = SQL NULL); SQLAlchemy
sessions become an explicit `DB` record of lists, where list order models
the enumeration order of an unordered SQL result set.  Python truthiness
(`if family_id:`, `x or "NO_CHANGE"`, `[base_text] if base_text else []`)
is modelled explicitly, since the source relies on it.
-/

import Mathlib

namespace ContractIntel

/-! ### Python string helpers

`s.strip()` / `s.lower()` as used by `hashing.py` and `family.py`.
`pyLower` models `str.lower` on the ASCII alphabet (the relevant domain for
normalized party names). -/

def isPyWS (c : Char) : Bool :=
  c = ' ' || c = '\t' || c = '\n' || c = '\r' || c = '\x0b' || c = '\x0c'

def pyStrip (s : String) : String :=
  String.mk (((s.toList.dropWhile isPyWS).reverse.dropWhile isPyWS).reverse)

def pyLower (s : String) : String :=
  String.mk (s.toList.map Char.toLower)

/-- `str.upper` on the ASCII alphabet (change-action strings). -/
def pyUpper (s : String) : String :=
  String.mk (s.toList.map Char.toUpper)

/-- `x.strip().lower()` as applied to each party name. -/
def pyNorm (s : String) : String := pyLower (pyStrip s)

/-- Python's `<` on strings: lexicographic comparison by code point. -/
def pyStrLtB : List Char → List Char → Bool
  | [], [] => false
  | [], _ :: _ => true
  | _ :: _, [] => false
  | a :: as, b :: bs =>
    if a.toNat < b.toNat then true
    else if b.toNat < a.toNat then false
    else pyStrLtB as bs

def pyStrLt (x y : String) : Bool := pyStrLtB x.toList y.toList

/-- Python's `sorted([x, y])` on two strings (code-point lexicographic,
stable: `x` stays first unless `y < x`). -/
def sortedPair (x y : String) : List String :=
  if pyStrLt y x then [y, x] else [x, y]

/-! ### `ingestion/hashing.py`

The SHA-256 digest is abstracted as a parameter `hash`; the identifiers
are exactly the source's compositions of normalization, sorting, joining
and hashing. -/

def computeFamilyKeysHash (hash : String → String) (partyA partyB : String) : String :=
  hash (String.intercalate "|" (sortedPair (pyNorm partyA) (pyNorm partyB)))

def computeFamilyId (hash : String → String) (familyKeysHash : String) : String :=
  hash familyKeysHash

/-! ### Data model (`db/models.py`) -/

structure Family where
  family_id : String
  family_keys_hash : String
  partyA_norm : String
  partyB_norm : String
  created_at : Nat
  deriving Repr, DecidableEq

structure ContractDocument where
  doc_id : String
  file_hash : String
  family_id : Option String
  doc_type : Option String
  doc_version_ingest : Option Nat
  doc_version_timeline : Option Nat
  effective_ts : Option Nat
  created_at : Nat
  deriving Repr, DecidableEq

structure ClauseNode where
  node_id : String
  doc_id : String
  family_id : String
  canonical_section_id : String
  change_action : Option String
  effective_ts : Option Nat
  clause_text : String
  created_at : Nat
  deriving Repr, DecidableEq

structure FamilySectionCurrent where
  family_id : String
  canonical_section_id : String
  current_node_id : Option String
  current_effective_ts : Option Nat
  composed_text : Option String
  updated_at : Nat
  deriving Repr, DecidableEq

/-- The relational store: each field is one table, in enumeration order. -/
structure DB where
  families : List Family
  docs : List ContractDocument
  nodes : List ClauseNode
  currents : List FamilySectionCurrent
  deriving Repr, DecidableEq

/-! ### List lookup helpers (model of `.first()` / `session.get`) -/

def findFirst (p : α → Bool) : List α → Option α
  | [] => none
  | x :: xs => if p x then some x else findFirst p xs

theorem findFirst_cons (p : α → Bool) (x : α) (xs : List α) :
    findFirst p (x :: xs) = if p x then some x else findFirst p xs := rfl

theorem findFirst_append (p : α → Bool) (l₁ l₂ : List α) :
    findFirst p (l₁ ++ l₂) =
      match findFirst p l₁ with
      | some x => some x
      | none => findFirst p l₂ := by
  induction l₁ with
  | nil => rfl
  | cons x xs ih =>
    by_cases h : p x <;> simp [findFirst, h, ih]

/-! ### Ordering used in the SQL `ORDER BY` clauses

`effective_ts ASC NULLS LAST`, optionally tie-broken by `created_at ASC`. -/

/-- `≤` on nullable timestamps with NULLs sorted last. -/
def tsLeB : Option Nat → Option Nat → Bool
  | some a, some b => a ≤ b
  | some _, none => true
  | none, some _ => false
  | none, none => true

/-- Lexicographic `(effective_ts NULLS LAST, created_at)` comparison. -/
def lexLeB (t₁ t₂ : Option Nat) (c₁ c₂ : Nat) : Bool :=
  if t₁ = t₂ then c₁ ≤ c₂ else tsLeB t₁ t₂

/-- Node order used by `materialize_section`:
`effective_ts.asc().nullslast(), created_at.asc()`. -/
def nodeLeMatB (a b : ClauseNode) : Bool :=
  lexLeB a.effective_ts b.effective_ts a.created_at b.created_at

/-- Node order used by `query_as_of` / `query_history`:
`effective_ts.asc().nullslast()` only (no tie-break). -/
def nodeLeAsOfB (a b : ClauseNode) : Bool :=
  tsLeB a.effective_ts b.effective_ts

/-- Document order used by `assign_doc_versions`:
`effective_ts.asc().nullslast(), created_at.asc()`. -/
def docLeB (a b : ContractDocument) : Bool :=
  lexLeB a.effective_ts b.effective_ts a.created_at b.created_at

def NodeLeMat (a b : ClauseNode) : Prop := nodeLeMatB a b = true

def NodeLeAsOf (a b : ClauseNode) : Prop := nodeLeAsOfB a b = true

def DocLe (a b : ContractDocument) : Prop := docLeB a b = true

instance : DecidableRel NodeLeMat := fun a b => instDecidableEqBool _ _
instance : DecidableRel NodeLeAsOf := fun a b => instDecidableEqBool _ _
instance : DecidableRel DocLe := fun a b => instDecidableEqBool _ _

theorem tsLeB_total (a b : Option Nat) : tsLeB a b = true ∨ tsLeB b a = true := by
  cases a <;> cases b <;> simp [tsLeB] <;> omega

theorem tsLeB_trans {a b c : Option Nat}
    (h₁ : tsLeB a b = true) (h₂ : tsLeB b c = true) : tsLeB a c = true := by
  cases a <;> cases b <;> cases c <;> simp_all [tsLeB] <;> omega

theorem tsLeB_antisymm {a b : Option Nat}
    (h₁ : tsLeB a b = true) (h₂ : tsLeB b a = true) : a = b := by
  cases a <;> cases b <;> simp_all [tsLeB] <;> omega

theorem lexLeB_total (t₁ t₂ : Option Nat) (c₁ c₂ : Nat) :
    lexLeB t₁ t₂ c₁ c₂ = true ∨ lexLeB t₂ t₁ c₂ c₁ = true := by
  unfold lexLeB
  by_cases h : t₁ = t₂
  · simp [h]; omega
  · simp [h, Ne.symm h]; exact tsLeB_total _ _

theorem lexLeB_trans {t₁ t₂ t₃ : Option Nat} {c₁ c₂ c₃ : Nat}
    (h₁ : lexLeB t₁ t₂ c₁ c₂ = true) (h₂ : lexLeB t₂ t₃ c₂ c₃ = true) :
    lexLeB t₁ t₃ c₁ c₃ = true := by
  unfold lexLeB at *
  by_cases e₁ : t₁ = t₂ <;> by_cases e₂ : t₂ = t₃
  · subst e₁; subst e₂
    simp_all; omega
  · subst e₁; simp_all
  · subst e₂; simp_all
  · simp only [e₁, e₂, if_false] at h₁ h₂
    by_cases e₃ : t₁ = t₃
    · exact absurd (tsLeB_antisymm h₂ (e₃ ▸ h₁)) e₂
    · simp [e₃]; exact tsLeB_trans h₁ h₂

instance : IsTotal ClauseNode NodeLeMat :=
  ⟨fun a b => lexLeB_total _ _ _ _⟩

instance : IsTrans ClauseNode NodeLeMat :=
  ⟨fun _ _ _ hab hbc => lexLeB_trans hab hbc⟩

instance : IsTotal ClauseNode NodeLeAsOf :=
  ⟨fun _ _ => tsLeB_total _ _⟩

instance : IsTrans ClauseNode NodeLeAsOf :=
  ⟨fun _ _ _ hab hbc => tsLeB_trans hab hbc⟩

instance : IsTotal ContractDocument DocLe :=
  ⟨fun a b => lexLeB_total _ _ _ _⟩

instance : IsTrans ContractDocument DocLe :=
  ⟨fun _ _ _ hab hbc => lexLeB_trans hab hbc⟩

/-- `ORDER BY effective_ts ASC NULLS LAST, created_at ASC` for clause nodes
(as in `materialize_section`). -/
def sortNodesMat (ns : List ClauseNode) : List ClauseNode :=
  ns.insertionSort NodeLeMat

/-- `ORDER BY effective_ts ASC NULLS LAST` for clause nodes
(as in `query_as_of`); ties keep stored order. -/
def sortNodesAsOf (ns : List ClauseNode) : List ClauseNode :=
  ns.insertionSort NodeLeAsOf

/-- `ORDER BY effective_ts ASC NULLS LAST, created_at ASC` for documents
(as in `assign_doc_versions`). -/
def sortDocs (ds : List ContractDocument) : List ContractDocument :=
  ds.insertionSort DocLe

/-! ### Supersession fold (`materialization/current_state.py` lines 68-145,
and its inlined twin in `query/engine.py` lines 403-470) -/

/-- The state threaded through the supersession walk. -/
structure FoldState where
  base_text : Option String
  base_node_id : Option String
  base_effective_ts : Option Nat
  is_deleted : Bool
  append_chain : List String
  deriving Repr, DecidableEq

/-- Initial fold state (`base_text = None`, … , `append_chain = []`). -/
def initState : FoldState :=
  { base_text := none, base_node_id := none, base_effective_ts := none,
    is_deleted := false, append_chain := [] }

/-- `(node.change_action or "NO_CHANGE").upper()` — Python truthiness:
both NULL and the empty string default to `NO_CHANGE`. -/
def normAction (a : Option String) : String :=
  match a with
  | none => "NO_CHANGE"
  | some s => if s = "" then "NO_CHANGE" else pyUpper s

/-- Whether the node's owning document has `doc_type = "restatement"`
(the `restatement_doc_ids` membership test, resolved through the
document table). -/
def isRestatementNode (docs : List ContractDocument) (n : ClauseNode) : Bool :=
  match findFirst (fun d => d.doc_id == n.doc_id) docs with
  | some d => d.doc_type == some "restatement"
  | none => false

/-- One transition of the supersession state machine as implemented in
`materialize_section` (`current_state.py` lines 82-135). -/
def matStep (docs : List ContractDocument) (s : FoldState) (n : ClauseNode) : FoldState :=
  if isRestatementNode docs n then
    { base_text := some n.clause_text, base_node_id := some n.node_id,
      base_effective_ts := n.effective_ts, append_chain := [], is_deleted := false }
  else
    let action := normAction n.change_action
    if action = "REPLACE" then
      { base_text := some n.clause_text, base_node_id := some n.node_id,
        base_effective_ts := n.effective_ts, append_chain := [], is_deleted := false }
    else if action = "APPEND" then
      { s with append_chain := s.append_chain ++ [n.clause_text],
               base_node_id := some n.node_id,
               base_effective_ts := n.effective_ts, is_deleted := false }
    else if action = "ADD_NEW" then
      if s.base_text = none then
        { s with base_text := some n.clause_text, base_node_id := some n.node_id,
                 base_effective_ts := n.effective_ts, is_deleted := false }
      else
        { base_text := some n.clause_text, base_node_id := some n.node_id,
          base_effective_ts := n.effective_ts, append_chain := [], is_deleted := false }
    else if action = "DELETE" then
      { base_text := none, base_node_id := none,
        base_effective_ts := n.effective_ts, append_chain := [], is_deleted := true }
    else if action = "NO_CHANGE" then
      if s.base_text = none then
        { s with base_text := some n.clause_text, base_node_id := some n.node_id,
                 base_effective_ts := n.effective_ts, is_deleted := false }
      else s
    else s

/-- One transition of the inlined supersession walk in `query_as_of`
(`engine.py` lines 416-454).  It differs from `matStep` in the `ADD_NEW`
branch (no `base_text is None` case split: the append chain is always
cleared) and in the `NO_CHANGE` branch (`is_deleted` is not cleared). -/
def asOfStep (docs : List ContractDocument) (s : FoldState) (n : ClauseNode) : FoldState :=
  if isRestatementNode docs n then
    { base_text := some n.clause_text, base_node_id := some n.node_id,
      base_effective_ts := n.effective_ts, append_chain := [], is_deleted := false }
  else
    let action := normAction n.change_action
    if action = "REPLACE" then
      { base_text := some n.clause_text, base_node_id := some n.node_id,
        base_effective_ts := n.effective_ts, append_chain := [], is_deleted := false }
    else if action = "APPEND" then
      { s with append_chain := s.append_chain ++ [n.clause_text],
               base_node_id := some n.node_id,
               base_effective_ts := n.effective_ts, is_deleted := false }
    else if action = "ADD_NEW" then
      { base_text := some n.clause_text, base_node_id := some n.node_id,
        base_effective_ts := n.effective_ts, append_chain := [], is_deleted := false }
    else if action = "DELETE" then
      { base_text := none, base_node_id := none,
        base_effective_ts := n.effective_ts, append_chain := [], is_deleted := true }
    else if action = "NO_CHANGE" then
      if s.base_text = none then
        { s with base_text := some n.clause_text, base_node_id := some n.node_id,
                 base_effective_ts := n.effective_ts }
      else s
    else s

def foldMat (docs : List ContractDocument) (s : FoldState) (ns : List ClauseNode) : FoldState :=
  ns.foldl (matStep docs) s

def foldAsOf (docs : List ContractDocument) (s : FoldState) (ns : List ClauseNode) : FoldState :=
  ns.foldl (asOfStep docs) s

/-- `parts = [base_text] if base_text else []; parts.extend(append_chain)`
(Python truthiness: an empty-string baseline contributes nothing). -/
def composeParts (s : FoldState) : List String :=
  (match s.base_text with
   | some t => if t = "" then [] else [t]
   | none => []) ++ s.append_chain

/-- `"\n\n".join(parts) if parts else None`. -/
def composedText (s : FoldState) : Option String :=
  let parts := composeParts s
  if parts = [] then none else some (String.intercalate "\n\n" parts)

/-! ### `materialize_section` (`current_state.py` lines 35-171)

The session becomes an explicit `DB`; the returned pair is (return value,
updated store). -/

/-- Key predicate of the `family_section_current` composite primary key. -/
def rowKeyIs (fid sid : String) (r : FamilySectionCurrent) : Bool :=
  r.family_id == fid && r.canonical_section_id == sid

/-- Replace the row with this key in place, or append it (`session.add`). -/
def putRow (currents : List FamilySectionCurrent) (row : FamilySectionCurrent) :
    List FamilySectionCurrent :=
  if (currents.filter (rowKeyIs row.family_id row.canonical_section_id)).isEmpty then
    currents ++ [row]
  else
    currents.map (fun r =>
      if rowKeyIs row.family_id row.canonical_section_id r then row else r)

/-- The clause nodes fetched by `materialize_section`: filtered to the key,
ordered by `effective_ts ASC NULLS LAST, created_at ASC`. -/
def matNodes (db : DB) (fid sid : String) : List ClauseNode :=
  sortNodesMat (db.nodes.filter
    (fun n => n.family_id == fid && n.canonical_section_id == sid))

/-- `materialize_section(family_id, canonical_section_id, session)`.
Returns the upserted row (or `none`) and the updated store; `now` models
the `_utcnow()` read at line 161. -/
def materializeSection (db : DB) (fid sid : String) (now : Nat) :
    Option FamilySectionCurrent × DB :=
  let nodes := matNodes db fid sid
  if nodes.isEmpty then
    -- No nodes for this section: remove the current row if it exists.
    (none, { db with currents := db.currents.filter (fun r => !rowKeyIs fid sid r) })
  else
    let st := foldMat db.docs initState nodes
    let composed : Option String := if st.is_deleted then none else composedText st
    let currentNodeId : Option String := if st.is_deleted then none else st.base_node_id
    let existing := findFirst (rowKeyIs fid sid) db.currents
    if existing.isNone && composed.isNone && currentNodeId.isNone then
      (none, db)  -- Section is deleted or empty, nothing to store.
    else
      let row : FamilySectionCurrent :=
        { family_id := fid, canonical_section_id := sid,
          current_node_id := currentNodeId,
          current_effective_ts := st.base_effective_ts,
          composed_text := composed, updated_at := now }
      (some row, { db with currents := putRow db.currents row })

/-- The row that `materialize_section` writes for this key at clock `now`
(lines 148-161), as a standalone definition for stating theorems. -/
def matRow (db : DB) (fid sid : String) (now : Nat) : FamilySectionCurrent :=
  let st := foldMat db.docs initState (matNodes db fid sid)
  { family_id := fid, canonical_section_id := sid,
    current_node_id := if st.is_deleted then none else st.base_node_id,
    current_effective_ts := st.base_effective_ts,
    composed_text := if st.is_deleted then none else composedText st,
    updated_at := now }

/-- The condition under which `materialize_section` stores nothing
(line 150: no pre-existing row and a deleted-or-empty result). -/
def matSkipCond (db : DB) (fid sid : String) : Bool :=
  (findFirst (rowKeyIs fid sid) db.currents).isNone
  && (if (foldMat db.docs initState (matNodes db fid sid)).is_deleted then none
      else composedText (foldMat db.docs initState (matNodes db fid sid))).isNone
  && (if (foldMat db.docs initState (matNodes db fid sid)).is_deleted then (none : Option String)
      else (foldMat db.docs initState (matNodes db fid sid)).base_node_id).isNone

/-! ### Query engine (`query/engine.py`) -/

/-- Python truthiness of an optional string (`if family_id:` etc.). -/
def strTruthy : Option String → Bool
  | none => false
  | some s => s ≠ ""

/-- `_resolve_family` (`engine.py` lines 60-78). -/
def resolveFamily (hash : String → String) (db : DB)
    (family_id party_a party_b : Option String) : Option Family :=
  if strTruthy family_id then
    findFirst (fun f => f.family_id == family_id.getD "") db.families
  else if strTruthy party_a && strTruthy party_b then
    let keysHash := computeFamilyKeysHash hash (party_a.getD "") (party_b.getD "")
    findFirst (fun f => f.family_keys_hash == keysHash) db.families
  else
    none

/-- `"semantic:" + section_query.lower().replace(" ", "_")`. -/
def semanticId (q : String) : String :=
  "semantic:" ++ String.mk ((pyLower q).toList.map (fun c => if c = ' ' then '_' else c))

/-- Whether `needle` occurs as a contiguous run inside the list. -/
def charsInfix (needle : List Char) : List Char → Bool
  | [] => needle.isEmpty
  | c :: t => List.isPrefixOf needle (c :: t) || charsInfix needle t

/-- Substring containment (`canonical_section_id.contains(section_query)`). -/
def strContains (hay needle : String) : Bool :=
  charsInfix needle.toList hay.toList

/-- The DISTINCT candidate ids enumerated by the fuzzy fallback, in the
enumeration order of the stored node list. -/
def fuzzyCandidates (nodes : List ClauseNode) (fid q : String) : List String :=
  ((nodes.filter (fun n =>
      n.family_id == fid && strContains n.canonical_section_id q)).map
    (fun n => n.canonical_section_id)).dedup

/-- `_resolve_section_id` (`engine.py` lines 81-135): exact match, then the
`semantic:` guess, then the first fuzzy candidate, else echo the query. -/
def resolveSectionId (nodes : List ClauseNode) (fid q : String) : String :=
  if nodes.any (fun n => n.family_id == fid && n.canonical_section_id == q) then q
  else if nodes.any (fun n =>
      n.family_id == fid && n.canonical_section_id == semanticId q) then semanticId q
  else
    match fuzzyCandidates nodes fid q with
    | c :: _ => c
    | [] => q

/-- Result shape of `query_current` (the `QueryResult` dataclass: an
`error` string, or the `data` payload). -/
inductive CurrentResult where
  | err (family_id sec : String) (msg : String)
  | ok (family_id sec : String) (composed_text : Option String)
       (current_node_id : Option String) (current_effective_ts : Option Nat)
       (updated_at : Nat)
  deriving Repr, DecidableEq

/-- `query_current` (`engine.py` lines 140-190). -/
def queryCurrent (hash : String → String) (db : DB) (sec : String)
    (family_id party_a party_b : Option String) : CurrentResult :=
  match resolveFamily hash db family_id party_a party_b with
  | none => .err (family_id.getD "") sec "Family not found."
  | some fam =>
    let fid := fam.family_id
    let rsid := resolveSectionId db.nodes fid sec
    match findFirst (rowKeyIs fid rsid) db.currents with
    | none => .err fid rsid ("No current state found for section '" ++ rsid ++ "'.")
    | some row =>
      .ok fid rsid row.composed_text row.current_node_id
        row.current_effective_ts row.updated_at

/-- Result shape of `query_changes`. -/
inductive ChangesResult where
  | err (family_id sec : String) (msg : String)
  | ok (family_id sec : String) (doc_version : Nat) (doc_type : Option String)
       (changes : List ClauseNode)
  deriving Repr, DecidableEq

/-- `query_changes` (`engine.py` lines 263-352).  A version that touches no
node of the section yields `ok` with an empty change list, not an error. -/
def queryChanges (hash : String → String) (db : DB) (sec : String)
    (doc_version : Nat) (family_id party_a party_b : Option String) : ChangesResult :=
  match resolveFamily hash db family_id party_a party_b with
  | none => .err (family_id.getD "") sec "Family not found."
  | some fam =>
    let fid := fam.family_id
    let rsid := resolveSectionId db.nodes fid sec
    match findFirst (fun d => d.family_id == some fid
        && d.doc_version_timeline == some doc_version) db.docs with
    | none => .err fid rsid
        ("No document found with version " ++ toString doc_version ++ " in this family.")
    | some doc =>
      let changeNodes := db.nodes.filter (fun n =>
        n.doc_id == doc.doc_id && n.canonical_section_id == rsid)
      .ok fid rsid doc_version doc.doc_type changeNodes

/-- Result shape of `query_as_of`: error, or a `DELETED`/`ACTIVE` payload. -/
inductive AsOfResult where
  | err (family_id sec : String) (msg : String)
  | deleted (family_id sec : String) (as_of_date : Nat)
  | active (family_id sec : String) (as_of_date : Nat)
      (composed_text : Option String) (current_node_id : Option String)
      (effective_ts : Option Nat)
  deriving Repr, DecidableEq

/-- The SQL filter `ClauseNode.effective_ts <= as_of_date`: a NULL
`effective_ts` never passes the comparison. -/
def tsPassB (n : ClauseNode) (cutoff : Nat) : Bool :=
  match n.effective_ts with
  | some t => t ≤ cutoff
  | none => false

/-- `query_as_of` (`engine.py` lines 357-483). -/
def queryAsOf (hash : String → String) (db : DB) (sec : String) (cutoff : Nat)
    (family_id party_a party_b : Option String) : AsOfResult :=
  match resolveFamily hash db family_id party_a party_b with
  | none => .err (family_id.getD "") sec "Family not found."
  | some fam =>
    let fid := fam.family_id
    let rsid := resolveSectionId db.nodes fid sec
    let nodes := sortNodesAsOf (db.nodes.filter (fun n =>
      n.family_id == fid && n.canonical_section_id == rsid && tsPassB n cutoff))
    if nodes.isEmpty then
      .err fid rsid ("No data for section '" ++ rsid ++ "' as of the cutoff.")
    else
      let st := foldAsOf db.docs initState nodes
      if st.is_deleted then .deleted fid rsid cutoff
      else .active fid rsid cutoff (composedText st) st.base_node_id st.base_effective_ts

/-! ### `ingestion/family.py` -/

/-- `match_or_create_family(partyA_norm, partyB_norm, session)`: look up by
`family_keys_hash`; on a miss, create the family with the names stored in
sorted order.  `now` models the `created_at` default. -/
def matchOrCreateFamily (hash : String → String) (partyA partyB : String)
    (now : Nat) (fams : List Family) : String × List Family :=
  let keysHash := computeFamilyKeysHash hash partyA partyB
  let familyId := computeFamilyId hash keysHash
  match findFirst (fun f => f.family_keys_hash == keysHash) fams with
  | some f => (f.family_id, fams)
  | none =>
    let sortedNames := sortedPair (pyNorm partyA) (pyNorm partyB)
    let newFam : Family :=
      { family_id := familyId, family_keys_hash := keysHash,
        partyA_norm := sortedNames.headI,
        partyB_norm := sortedNames.getLastI,
        created_at := now }
    (familyId, fams ++ [newFam])

/-- `func.coalesce(func.max(doc_version_ingest), 0)` over the family's
documents (SQL `MAX` ignores NULLs; empty set gives 0). -/
def maxIngest (docs : List ContractDocument) (fid : String) : Nat :=
  (docs.filter (fun d => d.family_id == some fid)).foldl
    (fun m d => max m (d.doc_version_ingest.getD 0)) 0

/-- Position (0-based) of the document with this id in a list — the
`for rank, fd in enumerate(family_docs, start=1)` loop's match test. -/
def rankAux (id : String) : List ContractDocument → Option Nat
  | [] => none
  | d :: t => if d.doc_id == id then some 0 else (rankAux id t).map (· + 1)

/-- 1-based timeline rank of the document with this id in the sorted
family list (0 when absent, matching the loop's initialization). -/
def timelineRank (sorted : List ContractDocument) (id : String) : Nat :=
  match rankAux id sorted with
  | some i => i + 1
  | none => 0

/-- The family's documents (`filter(ContractDocument.family_id == family_id)`). -/
def famDocs (docs : List ContractDocument) (fid : String) : List ContractDocument :=
  docs.filter (fun d => d.family_id == some fid)

/-- The in-place update of the target document (`family.py` lines 103-108):
set its family, its arrival version and its effective date. -/
def updateTargetDoc (docs : List ContractDocument) (doc_id fid : String)
    (vi : Nat) (eff : Option Nat) : List ContractDocument :=
  docs.map (fun d =>
    if d.doc_id == doc_id then
      { d with family_id := some fid, doc_version_ingest := some vi,
               effective_ts := eff }
    else d)

/-- The per-document timeline update of the ranking loop
(`family.py` lines 122-123). -/
def setTimeline (sorted : List ContractDocument) (fid : String)
    (d : ContractDocument) : ContractDocument :=
  if d.family_id == some fid then
    { d with doc_version_timeline := some (timelineRank sorted d.doc_id) }
  else d

/-- `assign_doc_versions(doc_id, family_id, effective_ts, session)`:
computes the arrival counter, updates the target document in place, then
recomputes `doc_version_timeline` for every family document from the
`(effective_ts NULLS LAST, created_at)` sort.  Returns the two versions
and the updated document table. -/
def assignDocVersions (docs : List ContractDocument) (doc_id fid : String)
    (eff : Option Nat) : Nat × Nat × List ContractDocument :=
  let vi := maxIngest docs fid + 1
  let docs₁ := updateTargetDoc docs doc_id fid vi eff
  let sorted := sortDocs (famDocs docs₁ fid)
  let docs₂ := docs₁.map (setTimeline sorted fid)
  (vi, timelineRank sorted doc_id, docs₂)

/-- The sort key of the timeline ordering: `(effective_ts, created_at)`. -/
def docKey (d : ContractDocument) : Option Nat × Nat :=
  (d.effective_ts, d.created_at)

/-- Strict "earlier in the timeline order" on sort keys
(the negation of the reverse `≤`, for a total preorder). -/
def keyLtB (k₁ k₂ : Option Nat × Nat) : Bool :=
  !(lexLeB k₂.1 k₁.1 k₂.2 k₁.2)

/-! ### Comparing the two supersession implementations (for C1)

The spec asserts that `query_as_of` runs the *identical* algorithm as
`materialize_section` restricted to the cutoff-passing nodes.  The
definitions below state that comparison and delimit exactly where the two
inlined copies of the state machine differ. -/

/-- The (deleted?, composed text, winning node id) triple that
`materialize_section` derives from its fold (`current_state.py` lines
137-145) — the quantities the claim compares. -/
def matTriple (docs : List ContractDocument) (ns : List ClauseNode) :
    Bool × Option String × Option String :=
  let st := foldMat docs initState ns
  (st.is_deleted,
   if st.is_deleted then none else composedText st,
   if st.is_deleted then none else st.base_node_id)

/-- The same triple as read off a `query_as_of` result (`none` on the
not-found error). -/
def asOfTriple : AsOfResult → Option (Bool × Option String × Option String)
  | .err _ _ _ => none
  | .deleted _ _ _ => some (true, none, none)
  | .active _ _ _ c nid _ => some (false, c, nid)

/-- The store restricted to the clause nodes passing the cutoff filter
(`effective_ts ≤ cutoff`; NULL never passes). -/
def restrictToCutoff (db : DB) (cutoff : Nat) : DB :=
  { db with nodes := db.nodes.filter (fun n => tsPassB n cutoff) }

/-- Claim C1's asserted equivalence, stated from the spec's words —
the status/composed-text/winning-node triple returned by `query_as_of`
equals the one `materialize_section` would produce when given exactly the
nodes passing the cutoff filter (for the key the query resolves). -/
def AsOfMatchesMaterializeAt (hash : String → String) (db : DB) (sec : String)
    (cutoff : Nat) (fid : String) : Prop :=
  asOfTriple (queryAsOf hash db sec cutoff (some fid) none none)
    = some (matTriple db.docs
        (matNodes (restrictToCutoff db cutoff) fid (resolveSectionId db.nodes fid sec)))

/-- A configuration where the two inlined state machines disagree:
an `ADD_NEW` node hit with no baseline but a pending append chain
(materialize keeps the chain, as-of clears it), or a `NO_CHANGE` node hit
while deleted with no baseline (materialize clears the deleted flag,
as-of does not). -/
def divergentStepB (docs : List ContractDocument) (s : FoldState) (n : ClauseNode) : Bool :=
  if isRestatementNode docs n then false
  else
    let a := normAction n.change_action
    (a == "ADD_NEW" && s.base_text == none && !s.append_chain.isEmpty) ||
    (a == "NO_CHANGE" && s.base_text == none && s.is_deleted)

/-- No divergent configuration is hit while folding this node sequence. -/
def traceOK (docs : List ContractDocument) : FoldState → List ClauseNode → Bool
  | _, [] => true
  | s, n :: ns => !divergentStepB docs s n && traceOK docs (matStep docs s n) ns

/-- The stored fields of a `family_section_current` row other than the
`updated_at` timestamp (for comparing two materialization runs). -/
def rowContent : Option FamilySectionCurrent →
    Option (String × String × Option String × Option Nat × Option String)
  | none => none
  | some r => some (r.family_id, r.canonical_section_id, r.current_node_id,
      r.current_effective_ts, r.composed_text)

/-! ### Concrete fixtures used by witnesses and counterexamples -/

/-- Counterexample fixture for C1: a `DELETE` node followed by a
`NO_CHANGE` node for the same key. -/
def c1node1 : ClauseNode :=
  { node_id := "n1", doc_id := "d1", family_id := "fam1",
    canonical_section_id := "5.3", change_action := some "DELETE",
    effective_ts := some 10, clause_text := "x", created_at := 1 }

def c1node2 : ClauseNode :=
  { node_id := "n2", doc_id := "d1", family_id := "fam1",
    canonical_section_id := "5.3", change_action := some "NO_CHANGE",
    effective_ts := some 20, clause_text := "revived", created_at := 2 }

def c8fam : Family :=
  { family_id := "fam1", family_keys_hash := "kh",
    partyA_norm := "acme", partyB_norm := "widget", created_at := 0 }

def c8doc1 : ContractDocument :=
  { doc_id := "d1", file_hash := "fh1", family_id := some "fam1",
    doc_type := some "master", doc_version_ingest := some 1,
    doc_version_timeline := some 1, effective_ts := some 10, created_at := 1 }

def c8node1 : ClauseNode :=
  { node_id := "n1", doc_id := "d1", family_id := "fam1",
    canonical_section_id := "5.3", change_action := some "NO_CHANGE",
    effective_ts := some 10, clause_text := "cap 500k", created_at := 1 }

def c8db : DB :=
  { families := [c8fam], docs := [c8doc1], nodes := [c8node1], currents := [] }

def c1db : DB :=
  { families := [c8fam], docs := [c8doc1], nodes := [c1node1, c1node2],
    currents := [] }

/-- C3 fixture: a single `DELETE` node and no pre-existing row. -/
def c3db : DB :=
  { families := [c8fam], docs := [c8doc1], nodes := [c1node1], currents := [] }

def c3prior : FamilySectionCurrent :=
  { family_id := "fam1", canonical_section_id := "5.3",
    current_node_id := some "n0", current_effective_ts := some 1,
    composed_text := some "old", updated_at := 0 }

/-- C3 fixture: the same `DELETE` node with a pre-existing row. -/
def c3dbPrior : DB :=
  { families := [c8fam], docs := [c8doc1], nodes := [c1node1],
    currents := [c3prior] }

/-- C4 fixture: a `REPLACE` baseline followed by an `APPEND`. -/
def c4n1 : ClauseNode :=
  { node_id := "n1", doc_id := "d1", family_id := "fam1",
    canonical_section_id := "5.3", change_action := some "REPLACE",
    effective_ts := some 10, clause_text := "a", created_at := 1 }

def c4n2 : ClauseNode :=
  { node_id := "n2", doc_id := "d1", family_id := "fam1",
    canonical_section_id := "5.3", change_action := some "APPEND",
    effective_ts := some 20, clause_text := "b", created_at := 2 }

def c4db : DB :=
  { families := [c8fam], docs := [c8doc1], nodes := [c4n1, c4n2], currents := [] }

/-- C10 fixture: a single node whose `effective_ts` is NULL. -/
def c10node : ClauseNode :=
  { node_id := "n5", doc_id := "d1", family_id := "fam1",
    canonical_section_id := "5.3", change_action := some "NO_CHANGE",
    effective_ts := none, clause_text := "null-dated text", created_at := 1 }

def c10base : DB :=
  { families := [c8fam], docs := [c8doc1], nodes := [c10node], currents := [] }

/-- C10 fixture: the store after materializing the null-dated key. -/
def c10db : DB := (materializeSection c10base "fam1" "5.3" 3).2

/-- C9 fixtures: two sections whose ids both contain the query `"5.3"`. -/
def c9n1 : ClauseNode :=
  { node_id := "m1", doc_id := "d1", family_id := "fam1",
    canonical_section_id := "a5.3", change_action := some "REPLACE",
    effective_ts := some 10, clause_text := "alpha text", created_at := 1 }

def c9n2 : ClauseNode :=
  { node_id := "m2", doc_id := "d1", family_id := "fam1",
    canonical_section_id := "b5.3", change_action := some "REPLACE",
    effective_ts := some 10, clause_text := "beta text", created_at := 2 }

/-- The same stored facts in two different enumeration orders. -/
def c9db1 : DB :=
  { families := [c8fam], docs := [c8doc1], nodes := [c9n1, c9n2], currents := [] }

def c9db2 : DB :=
  { families := [c8fam], docs := [c8doc1], nodes := [c9n2, c9n1], currents := [] }

/-- C9 fixture: a node whose id `"5.3"` matches the query exactly (while
also being one of several distinct substring candidates). -/
def c9ex : ClauseNode :=
  { node_id := "m0", doc_id := "d1", family_id := "fam1",
    canonical_section_id := "5.3", change_action := some "REPLACE",
    effective_ts := some 5, clause_text := "exact text", created_at := 0 }

/-- C6 fixtures: two documents of one family, ingested out of order. -/
def c6doc1 : ContractDocument :=
  { doc_id := "dA", file_hash := "fA", family_id := some "fam1",
    doc_type := some "master", doc_version_ingest := none,
    doc_version_timeline := none, effective_ts := none, created_at := 1 }

def c6doc2 : ContractDocument :=
  { doc_id := "dB", file_hash := "fB", family_id := some "fam1",
    doc_type := some "amendment", doc_version_ingest := none,
    doc_version_timeline := none, effective_ts := none, created_at := 2 }

/-- Document table after the first ingestion (effective 2024-06-01) and the
arrival of the second document. -/
def c6docsB : List ContractDocument :=
  (assignDocVersions [c6doc1] "dA" "fam1" (some 20240601)).2.2 ++ [c6doc2]

/-! ## Claims -/

/-! ### C5 — restatement overrides the node's own change action -/

/-- Claim C5: for every clause node whose owning document has
`doc_type = restatement`, the supersession fold (in both the materialize
and the as-of variant) unconditionally resets the state at that node —
the baseline becomes the node's text, the append chain is cleared and the
deleted flag is cleared — regardless of the node's own `change_action`
(the statement quantifies over every node, hence over `APPEND`,
`NO_CHANGE` and `DELETE` nodes in particular). -/
theorem restatement_resets_unconditionally
    (docs : List ContractDocument) (s : FoldState) (n : ClauseNode)
    (h : isRestatementNode docs n = true) :
    matStep docs s n =
      { base_text := some n.clause_text, base_node_id := some n.node_id,
        base_effective_ts := n.effective_ts, append_chain := [],
        is_deleted := false } ∧
    asOfStep docs s n =
      { base_text := some n.clause_text, base_node_id := some n.node_id,
        base_effective_ts := n.effective_ts, append_chain := [],
        is_deleted := false } := by
  constructor <;> simp [matStep, asOfStep, h]

/-- Witness for C5: a concrete `DELETE`-action node owned by a concrete
restatement document still resets the baseline. -/
theorem restatement_resets_unconditionally_witness :
    isRestatementNode
      [{ doc_id := "d1", file_hash := "fh", family_id := some "f",
         doc_type := some "restatement", doc_version_ingest := some 1,
         doc_version_timeline := some 1, effective_ts := some 5, created_at := 1 }]
      { node_id := "n1", doc_id := "d1", family_id := "f",
        canonical_section_id := "5.3", change_action := some "DELETE",
        effective_ts := some 5, clause_text := "restated text", created_at := 2 }
      = true ∧
    matStep
      [{ doc_id := "d1", file_hash := "fh", family_id := some "f",
         doc_type := some "restatement", doc_version_ingest := some 1,
         doc_version_timeline := some 1, effective_ts := some 5, created_at := 1 }]
      { base_text := some "old", base_node_id := some "n0",
        base_effective_ts := some 1, is_deleted := true,
        append_chain := ["frag"] }
      { node_id := "n1", doc_id := "d1", family_id := "f",
        canonical_section_id := "5.3", change_action := some "DELETE",
        effective_ts := some 5, clause_text := "restated text", created_at := 2 }
      = { base_text := some "restated text", base_node_id := some "n1",
          base_effective_ts := some 5, append_chain := [],
          is_deleted := false } ∧
    asOfStep
      [{ doc_id := "d1", file_hash := "fh", family_id := some "f",
         doc_type := some "restatement", doc_version_ingest := some 1,
         doc_version_timeline := some 1, effective_ts := some 5, created_at := 1 }]
      { base_text := some "old", base_node_id := some "n0",
        base_effective_ts := some 1, is_deleted := true,
        append_chain := ["frag"] }
      { node_id := "n1", doc_id := "d1", family_id := "f",
        canonical_section_id := "5.3", change_action := some "DELETE",
        effective_ts := some 5, clause_text := "restated text", created_at := 2 }
      = { base_text := some "restated text", base_node_id := some "n1",
          base_effective_ts := some 5, append_chain := [],
          is_deleted := false } := by
  refine ⟨by decide, ?_⟩
  have h := restatement_resets_unconditionally
    [{ doc_id := "d1", file_hash := "fh", family_id := some "f",
       doc_type := some "restatement", doc_version_ingest := some 1,
       doc_version_timeline := some 1, effective_ts := some 5, created_at := 1 }]
    { base_text := some "old", base_node_id := some "n0",
      base_effective_ts := some 1, is_deleted := true,
      append_chain := ["frag"] }
    { node_id := "n1", doc_id := "d1", family_id := "f",
      canonical_section_id := "5.3", change_action := some "DELETE",
      effective_ts := some 5, clause_text := "restated text", created_at := 2 }
    (by decide)
  exact h

/-! ### C1 — as-of versus materialize-restricted-to-cutoff -/

theorem asOfStep_eq_matStep_of_not_divergent
    (docs : List ContractDocument) (s : FoldState) (n : ClauseNode)
    (h : divergentStepB docs s n = false) :
    asOfStep docs s n = matStep docs s n := by
  by_cases hr : isRestatementNode docs n = true
  · simp [asOfStep, matStep, hr]
  · replace hr : isRestatementNode docs n = false := by
      exact Bool.eq_false_iff.mpr hr
    unfold asOfStep matStep
    simp only [hr, Bool.false_eq_true, if_false]
    by_cases h₁ : normAction n.change_action = "REPLACE"
    · simp [h₁]
    · by_cases h₂ : normAction n.change_action = "APPEND"
      · simp [h₁, h₂]
      · by_cases h₃ : normAction n.change_action = "ADD_NEW"
        · simp only [h₁, h₂, h₃, if_false, if_true]
          by_cases hb : s.base_text = none
          · cases hc : s.append_chain with
            | nil => simp [hb, hc]
            | cons a t =>
              exfalso
              simp [divergentStepB, hr, h₃, hb, hc] at h
          · simp [hb]
        · by_cases h₄ : normAction n.change_action = "DELETE"
          · simp [h₁, h₂, h₃, h₄]
          · by_cases h₅ : normAction n.change_action = "NO_CHANGE"
            · simp only [h₁, h₂, h₃, h₄, h₅, if_false, if_true]
              by_cases hb : s.base_text = none
              · cases hd : s.is_deleted with
                | false => simp [hb, hd]
                | true =>
                  exfalso
                  simp [divergentStepB, hr, h₅, hb, hd] at h
              · simp [hb]
            · simp [h₁, h₂, h₃, h₄, h₅]

theorem foldAsOf_eq_foldMat_of_traceOK
    (docs : List ContractDocument) :
    ∀ (ns : List ClauseNode) (s : FoldState), traceOK docs s ns = true →
      foldAsOf docs s ns = foldMat docs s ns := by
  intro ns
  induction ns with
  | nil => intro s _; rfl
  | cons n t ih =>
    intro s h
    unfold traceOK at h
    simp only [Bool.and_eq_true, Bool.not_eq_true'] at h
    have hstep := asOfStep_eq_matStep_of_not_divergent docs s n h.1
    show foldAsOf docs (asOfStep docs s n) t = foldMat docs (matStep docs s n) t
    rw [hstep]
    exact ih (matStep docs s n) h.2

/-- Claim C1 (amended): the two inlined supersession state machines — the
one in `materialize_section` and the one in `query_as_of` — coincide on
every node sequence whose fold never hits a divergent configuration
(an `ADD_NEW` node with no baseline and a pending append chain, or a
`NO_CHANGE` node in deleted state); on such sequences the resulting
deleted/active status, composed text and winning node id agree.  The
unamended claim (the triples agree on *every* node set) is refuted by
`as_of_diverges_from_materialize_cex`. -/
theorem as_of_fold_matches_materialize_fold
    (docs : List ContractDocument) (ns : List ClauseNode)
    (h : traceOK docs initState ns = true) :
    foldAsOf docs initState ns = foldMat docs initState ns ∧
    (foldAsOf docs initState ns).is_deleted = (foldMat docs initState ns).is_deleted ∧
    composedText (foldAsOf docs initState ns) = composedText (foldMat docs initState ns) ∧
    (foldAsOf docs initState ns).base_node_id = (foldMat docs initState ns).base_node_id := by
  have he := foldAsOf_eq_foldMat_of_traceOK docs ns initState h
  exact ⟨he, by rw [he], by rw [he], by rw [he]⟩

/-- Witness for the amended C1: a divergence-free
`REPLACE / APPEND / DELETE / REPLACE` history folds identically in both
implementations. -/
theorem as_of_fold_matches_materialize_fold_witness :
    traceOK [] initState
      [{ c1node1 with change_action := some "REPLACE", clause_text := "a" },
       { c1node2 with change_action := some "APPEND", clause_text := "b" }] = true ∧
    foldAsOf [] initState
      [{ c1node1 with change_action := some "REPLACE", clause_text := "a" },
       { c1node2 with change_action := some "APPEND", clause_text := "b" }]
    = foldMat [] initState
      [{ c1node1 with change_action := some "REPLACE", clause_text := "a" },
       { c1node2 with change_action := some "APPEND", clause_text := "b" }] :=
  ⟨by decide,
   (as_of_fold_matches_materialize_fold [] _ (by decide)).1⟩

/-- Counterexample to C1 as stated: for the concrete store `c1db`
(a `DELETE` node then a `NO_CHANGE` node, both inside the cutoff),
`query_as_of` reports `DELETED` with no text, while `materialize_section`
over exactly the cutoff-passing nodes revives the section and produces
composed text `"revived"` — so the as-of triple differs from the
materialize triple. -/
theorem as_of_diverges_from_materialize_cex :
    ¬ AsOfMatchesMaterializeAt (fun s => s) c1db "5.3" 30 "fam1" ∧
    asOfTriple (queryAsOf (fun s => s) c1db "5.3" 30 (some "fam1") none none)
      = some (true, none, none) ∧
    matTriple c1db.docs
        (matNodes (restrictToCutoff c1db 30) "fam1"
          (resolveSectionId c1db.nodes "fam1" "5.3"))
      = (false, some "revived", some "n2") := by
  refine ⟨?_, by decide, by decide⟩
  intro h
  have h₂ : asOfTriple (queryAsOf (fun s => s) c1db "5.3" 30 (some "fam1") none none)
      = some (true, none, none) := by decide
  have h₃ : matTriple c1db.docs
      (matNodes (restrictToCutoff c1db 30) "fam1"
        (resolveSectionId c1db.nodes "fam1" "5.3"))
      = (false, some "revived", some "n2") := by decide
  rw [AsOfMatchesMaterializeAt, h₂, h₃] at h
  exact absurd (Option.some.inj h) (by decide)

/-! ### C2 — materialization idempotence -/

theorem findFirst_eq_none_of_filter_nil (p : α → Bool) (l : List α)
    (h : l.filter p = []) : findFirst p l = none := by
  induction l with
  | nil => rfl
  | cons x t ih =>
    by_cases hx : p x
    · simp [List.filter_cons, hx] at h
    · simp only [List.filter_cons, hx] at h
      simp [findFirst, hx, ih h]

theorem findFirst_map_replace (p : α → Bool) (row : α) (hp : p row = true) :
    ∀ l : List α, l.filter p ≠ [] →
      findFirst p (l.map (fun r => if p r then row else r)) = some row := by
  intro l
  induction l with
  | nil => intro h; exact absurd rfl h
  | cons x t ih =>
    intro h
    by_cases hx : p x = true
    · simp [findFirst, hx, hp]
    · replace hx : p x = false := Bool.eq_false_iff.mpr hx
      have h' : t.filter p ≠ [] := by
        simpa [List.filter_cons, hx] using h
      simp [findFirst, hx, ih h']

theorem findFirst_putRow (c : List FamilySectionCurrent) (row : FamilySectionCurrent) :
    findFirst (rowKeyIs row.family_id row.canonical_section_id) (putRow c row)
      = some row := by
  have hp : rowKeyIs row.family_id row.canonical_section_id row = true := by
    simp [rowKeyIs]
  unfold putRow
  by_cases he : (c.filter (rowKeyIs row.family_id row.canonical_section_id)).isEmpty
  · simp only [he, if_true]
    rw [findFirst_append]
    rw [findFirst_eq_none_of_filter_nil _ _ (List.isEmpty_iff.mp he)]
    simp [findFirst, hp]
  · simp only [he, if_false, Bool.false_eq_true]
    exact findFirst_map_replace _ row hp c
      (fun hnil => he (by simp [hnil]))

theorem materializeSection_empty (db : DB) (fid sid : String) (t : Nat)
    (h : (matNodes db fid sid).isEmpty = true) :
    materializeSection db fid sid t
      = (none, { db with currents := db.currents.filter (fun r => !rowKeyIs fid sid r) }) := by
  unfold materializeSection
  simp only [h, if_true]

theorem materializeSection_skip (db : DB) (fid sid : String) (t : Nat)
    (h₁ : (matNodes db fid sid).isEmpty = false)
    (h₂ : matSkipCond db fid sid = true) :
    materializeSection db fid sid t = (none, db) := by
  unfold materializeSection
  unfold matSkipCond at h₂
  simp only [h₁, Bool.false_eq_true, if_false, h₂, if_true]

theorem materializeSection_write (db : DB) (fid sid : String) (t : Nat)
    (h₁ : (matNodes db fid sid).isEmpty = false)
    (h₂ : matSkipCond db fid sid = false) :
    materializeSection db fid sid t
      = (some (matRow db fid sid t),
         { db with currents := putRow db.currents (matRow db fid sid t) }) := by
  unfold materializeSection matRow
  unfold matSkipCond at h₂
  simp only [h₁, Bool.false_eq_true, if_false, h₂]

/-- Claim C2 (amended): two consecutive `materialize_section` runs over an
unchanged node set produce rows identical in every stored field *except*
`updated_at`, which is rewritten to each run's own clock reading — so the
row is byte-identical exactly when the two runs read the same clock value.
The unamended byte-level claim (including the last-updated timestamp) is
refuted by `materialize_not_byte_idempotent_cex`. -/
theorem materialize_idempotent_content (db : DB) (fid sid : String) (t₁ t₂ : Nat) :
    rowContent (materializeSection (materializeSection db fid sid t₁).2 fid sid t₂).1
      = rowContent (materializeSection db fid sid t₁).1 ∧
    (t₁ = t₂ →
      (materializeSection (materializeSection db fid sid t₁).2 fid sid t₂).1
        = (materializeSection db fid sid t₁).1) := by
  by_cases hn : (matNodes db fid sid).isEmpty = true
  · have h₁ := materializeSection_empty db fid sid t₁ hn
    have h₂ := materializeSection_empty
      { db with currents := db.currents.filter (fun r => !rowKeyIs fid sid r) }
      fid sid t₂ hn
    rw [h₁]
    refine ⟨by rw [h₂], fun _ => by rw [h₂]⟩
  · replace hn : (matNodes db fid sid).isEmpty = false := Bool.eq_false_iff.mpr hn
    by_cases hsk : matSkipCond db fid sid = true
    · have h₁ := materializeSection_skip db fid sid t₁ hn hsk
      have h₂ := materializeSection_skip db fid sid t₂ hn hsk
      rw [h₁]
      refine ⟨by rw [h₂], fun _ => by rw [h₂]⟩
    · replace hsk : matSkipCond db fid sid = false := Bool.eq_false_iff.mpr hsk
      have h₁ := materializeSection_write db fid sid t₁ hn hsk
      have hf : findFirst (rowKeyIs fid sid)
          (putRow db.currents (matRow db fid sid t₁)) = some (matRow db fid sid t₁) :=
        findFirst_putRow db.currents (matRow db fid sid t₁)
      have hsk₂ : matSkipCond
          { db with currents := putRow db.currents (matRow db fid sid t₁) } fid sid
          = false := by
        unfold matSkipCond
        rw [show ({ db with currents := putRow db.currents (matRow db fid sid t₁) } : DB).currents
              = putRow db.currents (matRow db fid sid t₁) from rfl, hf]
        simp
      have h₂ := materializeSection_write
        { db with currents := putRow db.currents (matRow db fid sid t₁) }
        fid sid t₂ hn hsk₂
      rw [h₁]
      constructor
      · rw [show (((some (matRow db fid sid t₁),
              { db with currents := putRow db.currents (matRow db fid sid t₁) }) :
              Option FamilySectionCurrent × DB)).2
            = { db with currents := putRow db.currents (matRow db fid sid t₁) } from rfl]
        rw [h₂]
        rfl
      · intro ht
        subst ht
        rw [show (((some (matRow db fid sid t₁),
              { db with currents := putRow db.currents (matRow db fid sid t₁) }) :
              Option FamilySectionCurrent × DB)).2
            = { db with currents := putRow db.currents (matRow db fid sid t₁) } from rfl]
        rw [h₂]
        rfl

/-- Witness for the amended C2: at the concrete store `c8db` the two runs
(at clock readings 0 and 1) agree on all stored fields but `updated_at`,
and runs at equal clock readings agree exactly. -/
theorem materialize_idempotent_content_witness :
    rowContent (materializeSection (materializeSection c8db "fam1" "5.3" 0).2 "fam1" "5.3" 1).1
      = rowContent (materializeSection c8db "fam1" "5.3" 0).1 ∧
    (materializeSection (materializeSection c8db "fam1" "5.3" 0).2 "fam1" "5.3" 0).1
      = (materializeSection c8db "fam1" "5.3" 0).1 :=
  ⟨(materialize_idempotent_content c8db "fam1" "5.3" 0 1).1,
   (materialize_idempotent_content c8db "fam1" "5.3" 0 0).2 rfl⟩

/-- Counterexample to C2 as stated: at the concrete store `c8db`, the first
run (clock 0) stores `updated_at = 0`, the immediately repeated run
(clock 1) rewrites `updated_at = 1`, so the stored row is *not*
byte-identical between the two runs — the non-timestamp fields are. -/
theorem materialize_not_byte_idempotent_cex :
    (materializeSection c8db "fam1" "5.3" 0).1
      = some { family_id := "fam1", canonical_section_id := "5.3",
               current_node_id := some "n1", current_effective_ts := some 10,
               composed_text := some "cap 500k", updated_at := 0 } ∧
    (materializeSection (materializeSection c8db "fam1" "5.3" 0).2 "fam1" "5.3" 1).1
      = some { family_id := "fam1", canonical_section_id := "5.3",
               current_node_id := some "n1", current_effective_ts := some 10,
               composed_text := some "cap 500k", updated_at := 1 } ∧
    (materializeSection (materializeSection c8db "fam1" "5.3" 0).2 "fam1" "5.3" 1).1
      ≠ (materializeSection c8db "fam1" "5.3" 0).1 := by
  refine ⟨by decide, by decide, by decide⟩

/-! ### C3 — deleted section versus never-existed section -/

theorem findFirst_filter_not (p : α → Bool) (l : List α) :
    findFirst p (l.filter (fun r => !p r)) = none := by
  induction l with
  | nil => rfl
  | cons x t ih =>
    by_cases hx : p x = true
    · simp [List.filter_cons, hx, ih]
    · replace hx : p x = false := Bool.eq_false_iff.mpr hx
      simp [List.filter_cons, hx, findFirst, ih]

/-- Claim C3 (amended): a key with zero clause nodes ends with no
`family_section_current` row (any prior row is removed); a key whose fold
ends deleted *updates a pre-existing row in place* to
`composed_text = null, current_node_id = null` — but when no row
pre-exists, the deleted fold stores nothing (`current_state.py` line 150),
so a freshly materialized deleted key is indistinguishable by row presence
from a key that never existed.  The unamended claim (a deleted fold always
leaves a row present) is refuted by
`materialize_delete_without_prior_row_cex`. -/
theorem materialize_delete_vs_absent (db : DB) (fid sid : String) (now : Nat) :
    ((matNodes db fid sid).isEmpty = true →
       (materializeSection db fid sid now).1 = none ∧
       findFirst (rowKeyIs fid sid) (materializeSection db fid sid now).2.currents
         = none) ∧
    ((matNodes db fid sid).isEmpty = false →
     (foldMat db.docs initState (matNodes db fid sid)).is_deleted = true →
       ((findFirst (rowKeyIs fid sid) db.currents = none →
           materializeSection db fid sid now = (none, db)) ∧
        (∀ r, findFirst (rowKeyIs fid sid) db.currents = some r →
           (materializeSection db fid sid now).1 = some (matRow db fid sid now) ∧
           (matRow db fid sid now).composed_text = none ∧
           (matRow db fid sid now).current_node_id = none ∧
           findFirst (rowKeyIs fid sid)
               (materializeSection db fid sid now).2.currents
             = some (matRow db fid sid now)))) := by
  constructor
  · intro hempty
    have h := materializeSection_empty db fid sid now hempty
    rw [h]
    exact ⟨rfl, findFirst_filter_not _ _⟩
  · intro hne hdel
    constructor
    · intro hprior
      apply materializeSection_skip db fid sid now hne
      unfold matSkipCond
      rw [hprior, hdel]
      simp
    · intro r hprior
      have hsk : matSkipCond db fid sid = false := by
        unfold matSkipCond
        rw [hprior]
        simp
      have hw := materializeSection_write db fid sid now hne hsk
      refine ⟨by rw [hw], ?_, ?_, ?_⟩
      · show (matRow db fid sid now).composed_text = none
        simp [matRow, hdel]
      · show (matRow db fid sid now).current_node_id = none
        simp [matRow, hdel]
      · rw [hw]
        exact findFirst_putRow db.currents (matRow db fid sid now)

/-- Witness for the amended C3: the concrete store `c3dbPrior`
(one `DELETE` node, one pre-existing row) keeps its row, nulled out. -/
theorem materialize_delete_vs_absent_witness :
    (matNodes c3dbPrior "fam1" "5.3").isEmpty = false ∧
    (foldMat c3dbPrior.docs initState (matNodes c3dbPrior "fam1" "5.3")).is_deleted
      = true ∧
    (materializeSection c3dbPrior "fam1" "5.3" 7).1
      = some (matRow c3dbPrior "fam1" "5.3" 7) ∧
    (matRow c3dbPrior "fam1" "5.3" 7).composed_text = none ∧
    (matRow c3dbPrior "fam1" "5.3" 7).current_node_id = none ∧
    findFirst (rowKeyIs "fam1" "5.3")
        (materializeSection c3dbPrior "fam1" "5.3" 7).2.currents
      = some (matRow c3dbPrior "fam1" "5.3" 7) := by
  have h := ((materialize_delete_vs_absent c3dbPrior "fam1" "5.3" 7).2
    (by decide) (by decide)).2 c3prior (by decide)
  exact ⟨by decide, by decide, h.1, h.2.1, h.2.2.1, h.2.2.2⟩

/-- Counterexample to C3 as stated: at `c3db` (a single `DELETE` node,
no pre-existing row) the fold ends deleted, yet materialization stores
*no* row at all — `composed_text = null / current_node_id = null` with a
present row does not happen here, so a deleted key is not distinguishable
by row presence from a never-existing one. -/
theorem materialize_delete_without_prior_row_cex :
    (matNodes c3db "fam1" "5.3").isEmpty = false ∧
    (foldMat c3db.docs initState (matNodes c3db "fam1" "5.3")).is_deleted = true ∧
    materializeSection c3db "fam1" "5.3" 0 = (none, c3db) ∧
    findFirst (rowKeyIs "fam1" "5.3")
        (materializeSection c3db "fam1" "5.3" 0).2.currents = none := by
  refine ⟨by decide, by decide, by decide, by decide⟩

/-! ### C4 — which node the materialized row points to -/

/-- Claim C4 (amended): the materialized row points to the *most recent*
node that modified the section state: a trailing non-restatement `APPEND`
node leaves its own id and effective date in `base_node_id` /
`base_effective_ts` (the row's pointer and date), not the id of the node
that established the baseline text; the baseline text and the extended
append chain are kept.  The unamended claim (the row points to the node
that established the final baseline) is refuted by
`materialize_points_to_appender_cex`. -/
theorem append_moves_row_pointer
    (docs : List ContractDocument) (ns : List ClauseNode) (n : ClauseNode)
    (hr : isRestatementNode docs n = false)
    (ha : normAction n.change_action = "APPEND") :
    (foldMat docs initState (ns ++ [n])).base_node_id = some n.node_id ∧
    (foldMat docs initState (ns ++ [n])).base_effective_ts = n.effective_ts ∧
    (foldMat docs initState (ns ++ [n])).is_deleted = false ∧
    (foldMat docs initState (ns ++ [n])).base_text
      = (foldMat docs initState ns).base_text ∧
    (foldMat docs initState (ns ++ [n])).append_chain
      = (foldMat docs initState ns).append_chain ++ [n.clause_text] := by
  have h : foldMat docs initState (ns ++ [n])
      = matStep docs (foldMat docs initState ns) n := by
    unfold foldMat
    rw [List.foldl_append]
    rfl
  rw [h]
  unfold matStep
  simp [hr, ha]

/-- Witness for the amended C4: appending `c4n2` after the `REPLACE` node
`c4n1` moves the pointer to `n2` while the baseline text stays `n1`'s. -/
theorem append_moves_row_pointer_witness :
    isRestatementNode c4db.docs c4n2 = false ∧
    normAction c4n2.change_action = "APPEND" ∧
    (foldMat c4db.docs initState ([c4n1] ++ [c4n2])).base_node_id = some "n2" ∧
    (foldMat c4db.docs initState ([c4n1] ++ [c4n2])).base_effective_ts = some 20 ∧
    (foldMat c4db.docs initState ([c4n1] ++ [c4n2])).base_text = some "a" := by
  have h := append_moves_row_pointer c4db.docs [c4n1] c4n2 (by decide) (by decide)
  exact ⟨by decide, by decide, h.1, h.2.1, by decide⟩

/-- Counterexample to C4 as stated: at `c4db` (`REPLACE "a"` by `n1`, then
`APPEND "b"` by `n2`) the final baseline text is `n1`'s `"a"`, yet the
materialized row's pointer is `n2` — the node that merely appended — and
not `n1`. -/
theorem materialize_points_to_appender_cex :
    (materializeSection c4db "fam1" "5.3" 0).1
      = some { family_id := "fam1", canonical_section_id := "5.3",
               current_node_id := some "n2", current_effective_ts := some 20,
               composed_text := some "a\n\nb", updated_at := 0 } ∧
    (foldMat c4db.docs initState (matNodes c4db "fam1" "5.3")).base_text
      = some "a" ∧
    c4n1.clause_text = "a" ∧
    (materializeSection c4db "fam1" "5.3" 0).1.bind
        (fun r => r.current_node_id) ≠ some "n1" := by
  refine ⟨by decide, by decide, by decide, by decide⟩

/-! ### C8 — a version touching no node of the section is not an error -/

/-- Claim C8: when `query_changes` resolves the family and finds a document
with the requested `version_timeline`, it returns a successful (`ok`)
result whose change list is exactly the document's nodes for the resolved
section — in particular the empty list when the document contributes no
node there; an `err` result occurs only when the family cannot be resolved
or no document carries the requested version. -/
theorem query_changes_empty_is_ok
    (hash : String → String) (db : DB) (sec : String) (v : Nat)
    (family_id party_a party_b : Option String)
    (f : Family)
    (hf : resolveFamily hash db family_id party_a party_b = some f) :
    (∀ d, findFirst (fun d => d.family_id == some f.family_id
          && d.doc_version_timeline == some v) db.docs = some d →
       queryChanges hash db sec v family_id party_a party_b
         = .ok f.family_id (resolveSectionId db.nodes f.family_id sec) v d.doc_type
             (db.nodes.filter (fun n => n.doc_id == d.doc_id
                && n.canonical_section_id == resolveSectionId db.nodes f.family_id sec))) ∧
    (findFirst (fun d => d.family_id == some f.family_id
          && d.doc_version_timeline == some v) db.docs = none →
       queryChanges hash db sec v family_id party_a party_b
         = .err f.family_id (resolveSectionId db.nodes f.family_id sec)
             ("No document found with version " ++ toString v ++ " in this family.")) := by
  constructor
  · intro d hd
    simp [queryChanges, hf, hd]
  · intro hd
    simp [queryChanges, hf, hd]

/-- Witness for C8: the spec's scenario — a family with two documents,
where version 1's document contributes nodes only to section `5.3`, so
`query_changes` on the unrelated section `10.1` with version 1 returns an
empty, non-error change list. -/
theorem query_changes_empty_is_ok_witness :
    resolveFamily (fun s => s) c8db (some "fam1") none none = some c8fam ∧
    findFirst (fun d => d.family_id == some "fam1"
        && d.doc_version_timeline == some 1) c8db.docs = some c8doc1 ∧
    (c8db.nodes.filter (fun n => n.doc_id == "d1"
        && n.canonical_section_id == resolveSectionId c8db.nodes "fam1" "10.1")) = [] ∧
    queryChanges (fun s => s) c8db "10.1" 1 (some "fam1") none none
      = .ok "fam1" "10.1" 1 (some "master") [] := by
  refine ⟨by decide, by decide, by decide, ?_⟩
  have h := (query_changes_empty_is_ok (fun s => s) c8db "10.1" 1
      (some "fam1") none none c8fam (by decide)).1 c8doc1 (by decide)
  simpa using h

/-! ### C10 — all-null effective dates: as-of never finds the section -/

/-- Claim C10: when every clause node of the resolved (family, section) key
has a NULL `effective_ts`, no node passes the `effective_ts ≤ cutoff`
filter, so `query_as_of` returns the not-found error for *every* cutoff —
even though `query_current` can return composed text for the same key,
because materialization sorts NULL effective dates last but still folds
those nodes (demonstrated on the concrete store `c10db`, whose current row
was produced by `materialize_section` itself). -/
theorem as_of_all_null_ts_not_found
    (hash : String → String) (db : DB) (sec : String) (cutoff : Nat)
    (family_id party_a party_b : Option String) (f : Family)
    (hf : resolveFamily hash db family_id party_a party_b = some f)
    (hnull : ∀ n ∈ db.nodes, n.family_id = f.family_id →
        n.canonical_section_id = resolveSectionId db.nodes f.family_id sec →
        n.effective_ts = none) :
    queryAsOf hash db sec cutoff family_id party_a party_b
      = .err f.family_id (resolveSectionId db.nodes f.family_id sec)
          ("No data for section '" ++ resolveSectionId db.nodes f.family_id sec
            ++ "' as of the cutoff.") ∧
    (queryCurrent (fun s => s) c10db "5.3" (some "fam1") none none
        = .ok "fam1" "5.3" (some "null-dated text") (some "n5") none 3 ∧
     queryAsOf (fun s => s) c10db "5.3" cutoff (some "fam1") none none
        = .err "fam1" "5.3" "No data for section '5.3' as of the cutoff.") := by
  constructor
  · have hfilter : db.nodes.filter (fun n =>
        n.family_id == f.family_id
          && n.canonical_section_id == resolveSectionId db.nodes f.family_id sec
          && tsPassB n cutoff) = [] := by
      rw [List.filter_eq_nil_iff]
      intro n hn hcontra
      simp only [Bool.and_eq_true, beq_iff_eq] at hcontra
      have hts := hnull n hn hcontra.1.1 hcontra.1.2
      rw [tsPassB, hts] at hcontra
      exact absurd hcontra.2 (by simp)
    unfold queryAsOf
    rw [hf]
    simp only [hfilter]
    rfl
  · exact ⟨by decide, rfl⟩

/-- Witness for C10: applying the theorem at the concrete all-null store
`c10db` (cutoff 999). -/
theorem as_of_all_null_ts_not_found_witness :
    queryAsOf (fun s => s) c10db "5.3" 999 (some "fam1") none none
      = .err "fam1" "5.3" "No data for section '5.3' as of the cutoff." ∧
    queryCurrent (fun s => s) c10db "5.3" (some "fam1") none none
      = .ok "fam1" "5.3" (some "null-dated text") (some "n5") none 3 := by
  have h := as_of_all_null_ts_not_found (fun s => s) c10db "5.3" 999
    (some "fam1") none none c8fam (by decide) (by decide)
  exact ⟨h.2.2, h.2.1⟩

/-! ### C9 — determinism of reads under result-set enumeration order -/

theorem any_eq_of_perm {l₁ l₂ : List α} (hp : l₁.Perm l₂) (p : α → Bool) :
    l₁.any p = l₂.any p := by
  by_cases h : l₁.any p = true
  · rw [h]
    rcases List.any_eq_true.mp h with ⟨x, hx, hpx⟩
    exact (List.any_eq_true.mpr ⟨x, hp.mem_iff.mp hx, hpx⟩).symm
  · replace h : l₁.any p = false := Bool.eq_false_iff.mpr h
    rw [h]
    symm
    rw [Bool.eq_false_iff]
    intro hc
    rcases List.any_eq_true.mp hc with ⟨x, hx, hpx⟩
    have : l₁.any p = true := List.any_eq_true.mpr ⟨x, hp.mem_iff.mpr hx, hpx⟩
    rw [h] at this
    exact Bool.false_ne_true this

/-- Claim C9 (amended): `_resolve_section_id` is a deterministic function
of the stored node list *including its enumeration order*; it is
independent of the enumeration order exactly when no ambiguity arises:
for any two enumeration orders of the same node multiset, the resolved id
is the same whenever the substring-containment fallback has at most one
distinct candidate (exact and `semantic:` matches are order-independent
unconditionally).  With two or more distinct fuzzy candidates the resolved
id — and hence the `query_as_of` result — depends on the enumeration
order, refuted as stated by `query_depends_on_enumeration_order_cex`. -/
theorem resolve_section_order_independent_when_unambiguous
    (nodes₁ nodes₂ : List ClauseNode) (fid q : String)
    (hp : nodes₁.Perm nodes₂)
    (hu : nodes₁.any (fun n => n.family_id == fid
            && n.canonical_section_id == q) = true
        ∨ nodes₁.any (fun n => n.family_id == fid
            && n.canonical_section_id == semanticId q) = true
        ∨ ∀ x ∈ fuzzyCandidates nodes₁ fid q,
            ∀ y ∈ fuzzyCandidates nodes₁ fid q, x = y) :
    resolveSectionId nodes₁ fid q = resolveSectionId nodes₂ fid q := by
  have hA := any_eq_of_perm hp
    (fun n => n.family_id == fid && n.canonical_section_id == q)
  have hB := any_eq_of_perm hp
    (fun n => n.family_id == fid && n.canonical_section_id == semanticId q)
  have hperm : (fuzzyCandidates nodes₁ fid q).Perm (fuzzyCandidates nodes₂ fid q) :=
    ((hp.filter _).map _).dedup
  unfold resolveSectionId
  rw [← hA, ← hB]
  by_cases h₁ : nodes₁.any
      (fun n => n.family_id == fid && n.canonical_section_id == q) = true
  · simp [h₁]
  · replace h₁ := Bool.eq_false_iff.mpr h₁
    by_cases h₂ : nodes₁.any
        (fun n => n.family_id == fid && n.canonical_section_id == semanticId q) = true
    · simp [h₁, h₂]
    · replace h₂ := Bool.eq_false_iff.mpr h₂
      simp only [h₁, h₂, Bool.false_eq_true, if_false]
      cases hc₁ : fuzzyCandidates nodes₁ fid q with
      | nil =>
        have hc₂ : fuzzyCandidates nodes₂ fid q = [] :=
          List.Perm.eq_nil (hc₁ ▸ hperm).symm
        rw [hc₂]
      | cons x xs =>
        cases hc₂ : fuzzyCandidates nodes₂ fid q with
        | nil =>
          exfalso
          have := (hc₁ ▸ hc₂ ▸ hperm)
          exact List.not_mem_nil x (this.mem_iff.mp (List.mem_cons_self x xs))
        | cons y ys =>
          have hy₁ : y ∈ fuzzyCandidates nodes₁ fid q := by
            rw [hc₁] at hperm ⊢
            rw [hc₂] at hperm
            exact hperm.symm.mem_iff.mp (List.mem_cons_self y ys)
          have hx₁ : x ∈ fuzzyCandidates nodes₁ fid q := by
            rw [hc₁]
            exact List.mem_cons_self x xs
          have hu₃ : ∀ x ∈ fuzzyCandidates nodes₁ fid q,
              ∀ y ∈ fuzzyCandidates nodes₁ fid q, x = y := by
            rcases hu with h | h | h
            · rw [h₁] at h
              exact absurd h Bool.false_ne_true
            · rw [h₂] at h
              exact absurd h Bool.false_ne_true
            · exact h
          exact hu₃ x hx₁ y hy₁

/-- Witness for the amended C9, one application per disjunct: two
enumeration orders of the same facts with a single (unambiguous) fuzzy
candidate resolve identically; and when an exact match exists, resolution
is order-independent even though three distinct substring candidates
(`"5.3"`, `"a5.3"`, `"b5.3"`) are present. -/
theorem resolve_section_order_independent_witness :
    ([c9n1, { c9n1 with node_id := "m3", created_at := 5 }].Perm
      [{ c9n1 with node_id := "m3", created_at := 5 }, c9n1]) ∧
    resolveSectionId [c9n1, { c9n1 with node_id := "m3", created_at := 5 }] "fam1" "5.3"
      = resolveSectionId [{ c9n1 with node_id := "m3", created_at := 5 }, c9n1] "fam1" "5.3" ∧
    fuzzyCandidates [c9ex, c9n1, c9n2] "fam1" "5.3" = ["5.3", "a5.3", "b5.3"] ∧
    resolveSectionId [c9ex, c9n1, c9n2] "fam1" "5.3"
      = resolveSectionId [c9ex, c9n2, c9n1] "fam1" "5.3" := by
  refine ⟨List.Perm.swap _ _ _, ?_, by decide, ?_⟩
  · exact resolve_section_order_independent_when_unambiguous _ _ "fam1" "5.3"
      (List.Perm.swap _ _ _) (Or.inr (Or.inr (by decide)))
  · exact resolve_section_order_independent_when_unambiguous _ _ "fam1" "5.3"
      (List.Perm.cons c9ex (List.Perm.swap c9n2 c9n1 []))
      (Or.inl (by decide))

/-- Counterexample to C9 as stated: `c9db1` and `c9db2` hold the same node
multiset in different enumeration orders, the query `"5.3"` matches two
distinct section ids by substring containment, and `query_as_of` returns
different composed texts for the two orders. -/
theorem query_depends_on_enumeration_order_cex :
    c9db1.nodes.Perm c9db2.nodes ∧
    resolveSectionId c9db1.nodes "fam1" "5.3" = "a5.3" ∧
    resolveSectionId c9db2.nodes "fam1" "5.3" = "b5.3" ∧
    queryAsOf (fun s => s) c9db1 "5.3" 30 (some "fam1") none none
      ≠ queryAsOf (fun s => s) c9db2 "5.3" 30 (some "fam1") none none := by
  refine ⟨List.Perm.swap _ _ _, by decide, by decide, by decide⟩

/-! ### C7 — symmetric family hash, idempotent match-or-create -/

theorem pyStrLtB_asymm : ∀ as bs : List Char,
    pyStrLtB as bs = true → pyStrLtB bs as = false := by
  intro as
  induction as with
  | nil =>
    intro bs h
    cases bs with
    | nil => simpa [pyStrLtB] using h
    | cons b t => simp [pyStrLtB]
  | cons a as ih =>
    intro bs h
    cases bs with
    | nil => simpa [pyStrLtB] using h
    | cons b t =>
      unfold pyStrLtB at h ⊢
      by_cases h₁ : a.toNat < b.toNat
      · simp [h₁, Nat.lt_asymm h₁]
      · by_cases h₂ : b.toNat < a.toNat
        · simp [h₁, h₂] at h
        · have hba : ¬ b.toNat < a.toNat := h₂
          simp only [h₁, h₂, if_false] at h
          simp [h₁, h₂, ih t h]

theorem pyStrLtB_conn : ∀ as bs : List Char,
    pyStrLtB as bs = false → pyStrLtB bs as = false → as = bs := by
  intro as
  induction as with
  | nil =>
    intro bs h _
    cases bs with
    | nil => rfl
    | cons b t => simp [pyStrLtB] at h
  | cons a as ih =>
    intro bs h h'
    cases bs with
    | nil => simp [pyStrLtB] at h'
    | cons b t =>
      unfold pyStrLtB at h h'
      by_cases h₁ : a.toNat < b.toNat
      · simp [h₁] at h
      · by_cases h₂ : b.toNat < a.toNat
        · simp [h₁, h₂] at h'
        · simp only [h₁, h₂, if_false] at h h'
          have hn : a.toNat = b.toNat := by omega
          have hab : a = b := by
            simpa [Char.ext_iff, UInt32.ext_iff, Char.toNat] using hn
          rw [hab, ih t h h']

theorem toList_inj {x y : String} (h : x.toList = y.toList) : x = y := by
  cases x with
  | mk dx =>
    cases y with
    | mk dy => exact congrArg String.mk h

theorem sortedPair_comm (x y : String) : sortedPair x y = sortedPair y x := by
  unfold sortedPair
  by_cases h₁ : pyStrLt y x = true
  · have h₂ : pyStrLt x y = false := pyStrLtB_asymm _ _ h₁
    rw [if_pos h₁, if_neg (by simp [h₂])]
  · replace h₁ : pyStrLt y x = false := Bool.eq_false_iff.mpr h₁
    by_cases h₂ : pyStrLt x y = true
    · rw [if_neg (by simp [h₁]), if_pos h₂]
    · replace h₂ : pyStrLt x y = false := Bool.eq_false_iff.mpr h₂
      have hxy : x = y := toList_inj (pyStrLtB_conn _ _ h₂ h₁)
      subst hxy
      rfl

/-- Claim C7: `family_keys_hash` is symmetric in its two arguments for
every hash function and every party-name pair; it is invariant under case
and surrounding-whitespace changes of either name (equal `strip().lower()`
normal forms); and `match_or_create_family` is idempotent — after one call,
any second call whose names produce the same keys hash (the same pair, the
swapped pair, or case/whitespace variants) returns the same `family_id`
and leaves the family table unchanged. -/
theorem family_hash_symmetric_and_match_idempotent
    (hash : String → String) (a b a₂ b₂ : String) (now now₂ : Nat)
    (fams : List Family)
    (hkeys : computeFamilyKeysHash hash a₂ b₂ = computeFamilyKeysHash hash a b) :
    computeFamilyKeysHash hash a b = computeFamilyKeysHash hash b a ∧
    (pyNorm a₂ = pyNorm a → pyNorm b₂ = pyNorm b →
      computeFamilyKeysHash hash a₂ b₂ = computeFamilyKeysHash hash a b) ∧
    matchOrCreateFamily hash a₂ b₂ now₂ (matchOrCreateFamily hash a b now fams).2
      = ((matchOrCreateFamily hash a b now fams).1,
         (matchOrCreateFamily hash a b now fams).2) := by
  refine ⟨?_, ?_, ?_⟩
  · unfold computeFamilyKeysHash
    rw [sortedPair_comm]
  · intro ha hb
    unfold computeFamilyKeysHash
    rw [ha, hb]
  · cases hfind : findFirst
        (fun f => f.family_keys_hash == computeFamilyKeysHash hash a b) fams with
    | some f =>
      have h₁ : matchOrCreateFamily hash a b now fams = (f.family_id, fams) := by
        simp only [matchOrCreateFamily, hfind]
      have h₂ : matchOrCreateFamily hash a₂ b₂ now₂ fams = (f.family_id, fams) := by
        simp only [matchOrCreateFamily, hkeys, hfind]
      rw [h₁, h₂]
    | none =>
      have h₁ : matchOrCreateFamily hash a b now fams
          = (computeFamilyId hash (computeFamilyKeysHash hash a b),
             fams ++ [{ family_id := computeFamilyId hash (computeFamilyKeysHash hash a b),
                        family_keys_hash := computeFamilyKeysHash hash a b,
                        partyA_norm := (sortedPair (pyNorm a) (pyNorm b)).headI,
                        partyB_norm := (sortedPair (pyNorm a) (pyNorm b)).getLastI,
                        created_at := now }]) := by
        simp only [matchOrCreateFamily, hfind]
      rw [h₁]
      simp only [matchOrCreateFamily, hkeys]
      rw [findFirst_append, hfind]
      simp [findFirst]

/-- Witness for C7: concrete names — swapped order, different case,
surrounding whitespace — produce one family and one id. -/
theorem family_hash_symmetric_and_match_idempotent_witness :
    computeFamilyKeysHash (fun s => s) "widget" "acme"
      = computeFamilyKeysHash (fun s => s) " Acme " "WIDGET" ∧
    computeFamilyKeysHash (fun s => s) " Acme " "WIDGET"
      = computeFamilyKeysHash (fun s => s) "WIDGET" " Acme " ∧
    matchOrCreateFamily (fun s => s) "widget" "acme" 9
        (matchOrCreateFamily (fun s => s) " Acme " "WIDGET" 4 []).2
      = ((matchOrCreateFamily (fun s => s) " Acme " "WIDGET" 4 []).1,
         (matchOrCreateFamily (fun s => s) " Acme " "WIDGET" 4 []).2) := by
  have h := family_hash_symmetric_and_match_idempotent (fun s => s)
    " Acme " "WIDGET" "widget" "acme" 4 9 [] (by decide)
  exact ⟨by decide, h.1, h.2.2⟩

/-! ### C6 — version assignment: arrival counter and timeline ranks -/

theorem lexLeB_refl (t : Option Nat) (c : Nat) : lexLeB t t c c = true := by
  simp [lexLeB]

theorem lexLeB_antisymm {t₁ t₂ : Option Nat} {c₁ c₂ : Nat}
    (h₁ : lexLeB t₁ t₂ c₁ c₂ = true) (h₂ : lexLeB t₂ t₁ c₂ c₁ = true) :
    t₁ = t₂ ∧ c₁ = c₂ := by
  unfold lexLeB at h₁ h₂
  by_cases e : t₁ = t₂
  · subst e
    simp_all
    omega
  · rw [if_neg e] at h₁
    rw [if_neg (Ne.symm e)] at h₂
    exact absurd (tsLeB_antisymm h₁ h₂) e

theorem keyLtB_irrefl (k : Option Nat × Nat) : keyLtB k k = false := by
  simp [keyLtB, lexLeB_refl]

theorem setTimeline_doc_id (s : List ContractDocument) (fid : String)
    (d : ContractDocument) : (setTimeline s fid d).doc_id = d.doc_id := by
  unfold setTimeline
  split <;> rfl

theorem setTimeline_ingest (s : List ContractDocument) (fid : String)
    (d : ContractDocument) :
    (setTimeline s fid d).doc_version_ingest = d.doc_version_ingest := by
  unfold setTimeline
  split <;> rfl

theorem setTimeline_family (s : List ContractDocument) (fid : String)
    (d : ContractDocument) : (setTimeline s fid d).family_id = d.family_id := by
  unfold setTimeline
  split <;> rfl

theorem setTimeline_key (s : List ContractDocument) (fid : String)
    (d : ContractDocument) : docKey (setTimeline s fid d) = docKey d := by
  unfold setTimeline docKey
  split <;> rfl

/-- In a timeline-sorted list with pairwise-distinct sort keys and distinct
document ids, the (1-based-rank − 1) position found by the ranking loop for
a member equals the number of strictly earlier documents. -/
theorem rank_eq_count_of_sorted :
    ∀ s : List ContractDocument, s.Sorted DocLe →
      (s.map docKey).Nodup → (s.map (fun d => d.doc_id)).Nodup →
      ∀ d ∈ s, rankAux d.doc_id s
        = some (s.countP (fun x => keyLtB (docKey x) (docKey d))) := by
  intro s
  induction s with
  | nil =>
    intro _ _ _ d hd
    exact absurd hd (List.not_mem_nil d)
  | cons a t ih =>
    intro hs hk hi d hd
    have hrel : ∀ x ∈ t, DocLe a x := List.rel_of_sorted_cons hs
    have hs' : t.Sorted DocLe := hs.of_cons
    rw [List.map_cons, List.nodup_cons] at hk hi
    rcases List.mem_cons.mp hd with heq | hdt
    · subst heq
      have hzero : t.countP (fun x => keyLtB (docKey x) (docKey d)) = 0 := by
        rw [List.countP_eq_zero]
        intro x hx hcon
        have hle : docLeB d x = true := hrel x hx
        unfold keyLtB at hcon
        unfold docLeB at hle
        rw [docKey, docKey] at hcon
        simp only [hle] at hcon
        exact Bool.false_ne_true (by simpa using hcon)
      rw [List.countP_cons, hzero, keyLtB_irrefl]
      simp [rankAux]
    · have hne : (a.doc_id == d.doc_id) = false := by
        rw [beq_eq_false_iff_ne]
        intro hcon
        exact hi.1 (hcon ▸ List.mem_map_of_mem (fun d => d.doc_id) hdt)
      have hIH := ih hs' hk.2 hi.2 d hdt
      have hpa : keyLtB (docKey a) (docKey d) = true := by
        have hle : docLeB a d = true := hrel d hdt
        unfold keyLtB
        rw [Bool.not_eq_true']
        rw [Bool.eq_false_iff]
        intro hcon
        unfold docLeB at hle
        rw [docKey, docKey] at hcon
        have hanti := lexLeB_antisymm hle (by simpa using hcon)
        have hkeyeq : docKey a = docKey d := by
          unfold docKey
          rw [hanti.1, hanti.2]
        exact hk.1 (hkeyeq ▸ List.mem_map_of_mem docKey hdt)
      rw [List.countP_cons]
      simp only [rankAux, hne, Bool.false_eq_true, if_false, hIH, hpa, if_true,
        Option.map_some]
      rfl

/-- Claim C6: `assign_doc_versions` gives the newly ingested document
`version_ingest = 1 + max existing version_ingest in its family`; it never
alters other documents' ingest versions; it recomputes every family
document's `version_timeline` as the 1-based rank under `effective_ts`
ascending with NULLs last, ties broken by creation timestamp (stated here
for inputs with distinct document ids and pairwise-distinct sort keys:
the rank equals one plus the number of strictly earlier family documents);
and the out-of-order scenario — effective 2024-06-01 ingested first,
2024-01-01 second — yields `version_ingest` 1, 2 but `version_timeline`
2, 1. -/
theorem assign_doc_versions_correct
    (docs : List ContractDocument) (doc_id fid : String) (eff : Option Nat)
    (hids : (docs.map (fun d => d.doc_id)).Nodup)
    (hkeys : ((famDocs (updateTargetDoc docs doc_id fid (maxIngest docs fid + 1) eff)
        fid).map docKey).Nodup) :
    (assignDocVersions docs doc_id fid eff).1 = maxIngest docs fid + 1 ∧
    (∀ d₀ ∈ docs, d₀.doc_id ≠ doc_id →
       ∃ d ∈ (assignDocVersions docs doc_id fid eff).2.2,
         d.doc_id = d₀.doc_id ∧ d.doc_version_ingest = d₀.doc_version_ingest) ∧
    (∀ d ∈ (assignDocVersions docs doc_id fid eff).2.2, d.family_id = some fid →
       d.doc_version_timeline
         = some (1 + (famDocs (assignDocVersions docs doc_id fid eff).2.2 fid).countP
             (fun x => keyLtB (docKey x) (docKey d)))) ∧
    ((assignDocVersions [c6doc1] "dA" "fam1" (some 20240601)).1 = 1 ∧
     (assignDocVersions [c6doc1] "dA" "fam1" (some 20240601)).2.1 = 1 ∧
     (assignDocVersions c6docsB "dB" "fam1" (some 20240101)).1 = 2 ∧
     (assignDocVersions c6docsB "dB" "fam1" (some 20240101)).2.1 = 1 ∧
     (assignDocVersions c6docsB "dB" "fam1" (some 20240101)).2.2.map
         (fun d => (d.doc_id, d.doc_version_ingest, d.doc_version_timeline))
       = [("dA", some 1, some 2), ("dB", some 2, some 1)]) := by
  have hassign : assignDocVersions docs doc_id fid eff
      = (maxIngest docs fid + 1,
         timelineRank (sortDocs (famDocs (updateTargetDoc docs doc_id fid
           (maxIngest docs fid + 1) eff) fid)) doc_id,
         (updateTargetDoc docs doc_id fid (maxIngest docs fid + 1) eff).map
           (setTimeline (sortDocs (famDocs (updateTargetDoc docs doc_id fid
             (maxIngest docs fid + 1) eff) fid)) fid)) := rfl
  refine ⟨rfl, ?_, ?_, by decide, by decide, by decide, by decide, by decide⟩
  · -- other documents keep their ingest version
    intro d₀ h₀ hne
    rw [hassign]
    refine ⟨setTimeline (sortDocs (famDocs (updateTargetDoc docs doc_id fid
      (maxIngest docs fid + 1) eff) fid)) fid d₀, ?_, ?_, ?_⟩
    · apply List.mem_map_of_mem
      unfold updateTargetDoc
      have hif : (fun d => if d.doc_id == doc_id then
          { d with family_id := some fid,
                   doc_version_ingest := some (maxIngest docs fid + 1),
                   effective_ts := eff } else d) d₀ = d₀ := by
        simp only [beq_eq_false_iff_ne.mpr hne, Bool.false_eq_true, if_false]
      exact hif ▸ List.mem_map_of_mem _ h₀
    · exact setTimeline_doc_id _ _ _
    · exact setTimeline_ingest _ _ _
  · -- timeline ranks
    intro d hd hfam
    rw [hassign] at hd ⊢
    obtain ⟨d₁, hd₁, rfl⟩ := List.mem_map.mp hd
    by_cases hfm : (d₁.family_id == some fid) = true
    · have hlt : (setTimeline (sortDocs (famDocs (updateTargetDoc docs doc_id fid
          (maxIngest docs fid + 1) eff) fid)) fid d₁).doc_version_timeline
          = some (timelineRank (sortDocs (famDocs (updateTargetDoc docs doc_id fid
              (maxIngest docs fid + 1) eff) fid)) d₁.doc_id) := by
        unfold setTimeline
        rw [if_pos hfm]
      have hdk : docKey (setTimeline (sortDocs (famDocs (updateTargetDoc docs doc_id fid
          (maxIngest docs fid + 1) eff) fid)) fid d₁) = docKey d₁ :=
        setTimeline_key _ _ _
      have hmem₁ : d₁ ∈ famDocs (updateTargetDoc docs doc_id fid
          (maxIngest docs fid + 1) eff) fid :=
        List.mem_filter.mpr ⟨hd₁, hfm⟩
      have hperm : (sortDocs (famDocs (updateTargetDoc docs doc_id fid
          (maxIngest docs fid + 1) eff) fid)).Perm
          (famDocs (updateTargetDoc docs doc_id fid
            (maxIngest docs fid + 1) eff) fid) :=
        List.perm_insertionSort DocLe _
      have hsorted : (sortDocs (famDocs (updateTargetDoc docs doc_id fid
          (maxIngest docs fid + 1) eff) fid)).Sorted DocLe :=
        List.sorted_insertionSort DocLe _
      have hkeyss : ((sortDocs (famDocs (updateTargetDoc docs doc_id fid
          (maxIngest docs fid + 1) eff) fid)).map docKey).Nodup :=
        (hperm.map docKey).nodup_iff.mpr hkeys
      have hids₁ : ((updateTargetDoc docs doc_id fid
          (maxIngest docs fid + 1) eff).map (fun d => d.doc_id)).Nodup := by
        have hmm : (updateTargetDoc docs doc_id fid
            (maxIngest docs fid + 1) eff).map (fun d => d.doc_id)
            = docs.map (fun d => d.doc_id) := by
          unfold updateTargetDoc
          rw [List.map_map]
          apply List.map_congr_left
          intro x _
          by_cases h : (x.doc_id == doc_id) = true <;>
            simp [Function.comp, h]
        rw [hmm]
        exact hids
      have hidsf : ((famDocs (updateTargetDoc docs doc_id fid
          (maxIngest docs fid + 1) eff) fid).map (fun d => d.doc_id)).Nodup :=
        List.Nodup.sublist ((List.filter_sublist _).map _) hids₁
      have hidss : ((sortDocs (famDocs (updateTargetDoc docs doc_id fid
          (maxIngest docs fid + 1) eff) fid)).map (fun d => d.doc_id)).Nodup :=
        (hperm.map _).nodup_iff.mpr hidsf
      have hmems : d₁ ∈ sortDocs (famDocs (updateTargetDoc docs doc_id fid
          (maxIngest docs fid + 1) eff) fid) := hperm.mem_iff.mpr hmem₁
      have hr := rank_eq_count_of_sorted _ hsorted hkeyss hidss d₁ hmems
      have htr : timelineRank (sortDocs (famDocs (updateTargetDoc docs doc_id fid
          (maxIngest docs fid + 1) eff) fid)) d₁.doc_id
          = (sortDocs (famDocs (updateTargetDoc docs doc_id fid
              (maxIngest docs fid + 1) eff) fid)).countP
            (fun x => keyLtB (docKey x) (docKey d₁)) + 1 := by
        unfold timelineRank
        rw [hr]
      have hc₁ : (sortDocs (famDocs (updateTargetDoc docs doc_id fid
          (maxIngest docs fid + 1) eff) fid)).countP
            (fun x => keyLtB (docKey x) (docKey d₁))
          = (famDocs (updateTargetDoc docs doc_id fid
              (maxIngest docs fid + 1) eff) fid).countP
            (fun x => keyLtB (docKey x) (docKey d₁)) :=
        hperm.countP_eq _
      have hc₂ : famDocs ((updateTargetDoc docs doc_id fid
          (maxIngest docs fid + 1) eff).map (setTimeline (sortDocs (famDocs
            (updateTargetDoc docs doc_id fid (maxIngest docs fid + 1) eff)
            fid)) fid)) fid
          = (famDocs (updateTargetDoc docs doc_id fid
              (maxIngest docs fid + 1) eff) fid).map
            (setTimeline (sortDocs (famDocs (updateTargetDoc docs doc_id fid
              (maxIngest docs fid + 1) eff) fid)) fid) := by
        unfold famDocs
        rw [List.filter_map]
        congr 1
        apply List.filter_congr
        intro x _
        simp [Function.comp, setTimeline_family]
      have hc₄ : ((famDocs (updateTargetDoc docs doc_id fid
          (maxIngest docs fid + 1) eff) fid).countP
            ((fun x => keyLtB (docKey x) (docKey d₁))
              ∘ setTimeline (sortDocs (famDocs (updateTargetDoc docs doc_id fid
                (maxIngest docs fid + 1) eff) fid)) fid))
          = (famDocs (updateTargetDoc docs doc_id fid
              (maxIngest docs fid + 1) eff) fid).countP
            (fun x => keyLtB (docKey x) (docKey d₁)) := by
        apply List.countP_congr
        intro x _
        simp [Function.comp, setTimeline_key]
      rw [hlt, hdk, hc₂, List.countP_map, hc₄, htr, hc₁, Nat.add_comm]
    · exfalso
      have : (setTimeline (sortDocs (famDocs (updateTargetDoc docs doc_id fid
          (maxIngest docs fid + 1) eff) fid)) fid d₁).family_id = d₁.family_id :=
        setTimeline_family _ _ _
      rw [this] at hfam
      exact hfm (by simp [hfam])

/-- Witness for C6: the out-of-order two-document family satisfies the
distinctness hypotheses, and the theorem applied there yields the arrival
counter and the rank characterization for the final document table. -/
theorem assign_doc_versions_correct_witness :
    (c6docsB.map (fun d => d.doc_id)).Nodup ∧
    ((famDocs (updateTargetDoc c6docsB "dB" "fam1" (maxIngest c6docsB "fam1" + 1)
        (some 20240101)) "fam1").map docKey).Nodup ∧
    (assignDocVersions c6docsB "dB" "fam1" (some 20240101)).1
      = maxIngest c6docsB "fam1" + 1 ∧
    (∀ d ∈ (assignDocVersions c6docsB "dB" "fam1" (some 20240101)).2.2,
       d.family_id = some "fam1" →
       d.doc_version_timeline
         = some (1 + (famDocs (assignDocVersions c6docsB "dB" "fam1"
             (some 20240101)).2.2 "fam1").countP
             (fun x => keyLtB (docKey x) (docKey d)))) := by
  have h := assign_doc_versions_correct c6docsB "dB" "fam1" (some 20240101)
    (by decide) (by decide)
  exact ⟨by decide, by decide, h.1, h.2.2.1⟩

end ContractIntel
